import Mathlib

/-!
# Verification of the podcast_stats dashboard (`src/app.py`)

Shallow embedding of the computational logic of `app.py`: the startup
aggregation (lines 20–36), the dropdown construction (lines 49–57), and
the two Dash callbacks `update_monthly_stats_graph` (lines 81–129) and
`update_graph` (lines 138–172).

Modelling conventions:
* A dataframe row is a `Row`; the loaded CSV is a `List Row`.
* Timestamps (`published_at`, `interval`) are dates encoded as `yyyymmdd`
  naturals, so chronological order is numeric order and pandas
  `to_period('M')` is division by 100 (the `yyyymm` month key).  The code
  turns month periods into `"YYYY-MM"` strings before merging and sorting;
  for four-digit years lexicographic order on those strings coincides with
  numeric order on the `yyyymm` key, so the keys are kept numeric here.
* The `downloads_total` column is `Option Int`: `none` models a
  malformed / NaN entry of the float column, `some v` a well-formed value.
  pandas NaN propagation is mirrored exactly where the code meets it:
  subtraction with a NaN operand yields NaN, `fillna` replaces NaN,
  `Series.sum()` skips NaN entries (`skipna=True`, empty sum `0`), and
  `int(...)` on NaN raises `ValueError`.
* pandas `groupby` sorts its group keys; `sortedKeys` produces the sorted
  distinct keys of a column and the per-group aggregate is computed by
  filtering on each key.
* `update_graph` can raise: `IndexError` from `.iloc[0]` / `.iloc[-1]` on
  an empty frame (line 144/170) and `ValueError` from `int(...)` on NaN
  (line 172).  It is embedded as an `Except PyError` value.
-/

/-- One CSV row (line 14): episode title, publish date, reporting interval,
and cumulative downloads total.  Dates are `yyyymmdd` naturals; the
downloads column is `Option Int` with `none` for a malformed / NaN value. -/
structure Row where
  episode_title : String
  published_at : Nat
  interval : Nat
  downloads_total : Option Int

deriving instance DecidableEq, Repr for Row

/-- pandas `Series.sum()` with the default `skipna=True`: NaN (`none`)
entries are skipped and the empty (or all-NaN) sum is `0`. -/
def sumOpt (l : List (Option Int)) : Int :=
  (l.filterMap id).sum

/-- Insert a key into a strictly sorted list of keys, dropping duplicates. -/
def insertKey (n : Nat) : List Nat → List Nat
  | [] => [n]
  | m :: ms =>
    if n < m then n :: m :: ms
    else if n = m then m :: ms
    else m :: insertKey n ms

/-- The sorted distinct keys of a column: pandas `groupby` sorts its group
keys and keeps each exactly once. -/
def sortedKeys (l : List Nat) : List Nat :=
  l.foldr insertKey []

/-- The summed `downloads_total` across all episodes at one interval: a
single group of `df.groupby('interval')['downloads_total'].sum()` (line 21). -/
def interval_total (df : List Row) (i : Nat) : Int :=
  sumOpt ((df.filter (fun r => r.interval = i)).map Row.downloads_total)

/-- `total_downloads_df` (line 21): per-interval totals across episodes,
one row per interval, sorted ascending by interval. -/
def total_downloads_df (df : List Row) : List (Nat × Int) :=
  (sortedKeys (df.map Row.interval)).map (fun i => (i, interval_total df i))

/-- `to_period('M')` on a `yyyymmdd`-encoded date: the `yyyymm` month key
(lines 22 and 27). -/
def monthOf (d : Nat) : Nat := d / 100

/-- Value of the last row of a keyed series, `0` on empty (models `.last()`
of a group, which is only taken on non-empty groups). -/
def lastVal (l : List (Nat × Int)) : Int :=
  ((l.getLast?).map Prod.snd).getD 0

/-- `monthly_downloads` (lines 22–24): bucket the per-interval totals by
calendar month and keep the last interval's total of each month. -/
def monthly_downloads (df : List Row) : List (Nat × Int) :=
  (sortedKeys ((total_downloads_df df).map (fun p => monthOf p.1))).map
    (fun m => (m, lastVal ((total_downloads_df df).filter (fun p => monthOf p.1 = m))))

/-- `drop_duplicates(subset=['episode_title'])` (line 29): keep the first
row of each title, scanning left to right with the titles seen so far. -/
def dropDupTitles (seen : List String) : List Row → List Row
  | [] => []
  | r :: rs =>
    if r.episode_title ∈ seen then dropDupTitles seen rs
    else r :: dropDupTitles (r.episode_title :: seen) rs

/-- `unique_episodes_df` (line 29): one row per episode title. -/
def unique_episodes_df (df : List Row) : List Row :=
  dropDupTitles [] df

/-- `episodes_per_month` (lines 27–32): count of distinct episodes first
published in each month, keyed and sorted by publish month. -/
def episodes_per_month (df : List Row) : List (Nat × Nat) :=
  (sortedKeys ((unique_episodes_df df).map (fun r => monthOf r.published_at))).map
    (fun m => (m, ((unique_episodes_df df).filter (fun r => monthOf r.published_at = m)).length))

/-- First value stored under key `m` in a keyed list (the match an outer
merge performs on the `month` column; both merged series have unique keys). -/
def lookupKey {β : Type} (m : Nat) : List (Nat × β) → Option β
  | [] => none
  | (k, v) :: rest => if k = m then some v else lookupKey m rest

/-- `all_months` (lines 35–36): outer-merge the two monthly series on the
month key, fill a missing metric with `0` (`fillna(0)`), and sort ascending
by month.  Each row is `(month, downloads_total, episode_count)`. -/
def all_months (df : List Row) : List (Nat × Int × Nat) :=
  (sortedKeys ((monthly_downloads df).map Prod.fst ++ (episodes_per_month df).map Prod.fst)).map
    (fun m => (m, (lookupKey m (monthly_downloads df)).getD 0,
                  (lookupKey m (episodes_per_month df)).getD 0))

/-- The most recent recorded interval falling in calendar month `m`: the
last of the ascending distinct interval keys whose month is `m`.  Because
`total_downloads_df` is sorted ascending by interval, this is the interval
whose summed total `.last()` picks for month `m` (line 23). -/
def last_interval_of_month (df : List Row) (m : Nat) : Option Nat :=
  ((sortedKeys (df.map Row.interval)).filter (fun i => monthOf i = m)).getLast?

/-! ## Layout: the episode dropdown (lines 49–57) -/

/-- pandas `Series.unique()`: the distinct values in first-occurrence order. -/
def uniqueList : List String → List String
  | [] => []
  | x :: xs => x :: (uniqueList xs).filter (fun y => y ≠ x)

/-- The dropdown's option values, `df['episode_title'].unique()` (line 53). -/
def dropdown_options (df : List Row) : List String :=
  uniqueList (df.map Row.episode_title)

/-- The dropdown's initial value, `df['episode_title'].iloc[0]` (line 54);
`none` when the dataframe is empty (where the code would raise). -/
def dropdown_value (df : List Row) : Option String :=
  (df.map Row.episode_title).head?

/-! ## The per-episode callback `update_graph` (lines 138–172) -/

/-- Stable insertion of a row into a list sorted ascending by `interval`. -/
def insertRow (r : Row) : List Row → List Row
  | [] => [r]
  | s :: ss => if r.interval ≤ s.interval then r :: s :: ss else s :: insertRow r ss

/-- `sort_values('interval')` (line 141): sort rows ascending by interval. -/
def sortByInterval : List Row → List Row
  | [] => []
  | r :: rs => insertRow r (sortByInterval rs)

/-- `filtered_df` of `update_graph` (lines 140–141): the selected episode's
rows sorted ascending by interval. -/
def episode_series (df : List Row) (selected_episode : String) : List Row :=
  sortByInterval (df.filter (fun r => r.episode_title = selected_episode))

/-- One step of `diff().fillna(downloads_total)` (line 147), carrying the
previous cumulative value: the diff against a NaN (or absent, for the first
row) predecessor is NaN and `fillna` replaces it by the row's own
cumulative value — which is itself NaN when that value is malformed. -/
def deltasFrom (prev : Option Int) : List (Option Int) → List (Option Int)
  | [] => []
  | x :: xs =>
    (match prev, x with
     | some a, some b => some (b - a)
     | _, _ => x) :: deltasFrom x xs

/-- The `monthly_downloads` column of `filtered_df` (line 147): successive
differences of the cumulative series, the first entry backfilled with the
first cumulative value. -/
def monthly_deltas (xs : List (Option Int)) : List (Option Int) :=
  deltasFrom none xs

/-- The two ways `update_graph` can raise: `.iloc[...]` on an empty frame
(lines 144 and 170) and `int(...)` on a NaN (line 172). -/
inductive PyError where
  | indexError
  | valueError

deriving instance DecidableEq, Repr for PyError

/-- The rendered output of `update_graph`: the line chart's data (lines
154–161), the publish date shown in the title (line 144), and the two stat
cards (line 172). -/
structure EpisodeView where
  xs : List Nat
  ys : List (Option Int)
  publish_date : Nat
  total_downloads : Int
  latest_downloads : Int

deriving instance DecidableEq, Repr for EpisodeView

/-- `update_graph` (lines 138–172).  Filter to the selected episode and
sort by interval; read the publish date from the first row (`IndexError`
if the filter is empty); build the delta series, sum it for the total
(NaNs skipped, so the total is never NaN); chart the raw cumulative
series; convert the last delta with `int(...)` for the latest-downloads
card (`ValueError` if it is NaN). -/
def update_graph (df : List Row) (selected_episode : String) : Except PyError EpisodeView :=
  let filtered_df := episode_series df selected_episode
  match filtered_df.head? with
  | none => .error .indexError
  | some r0 =>
    let ds := monthly_deltas (filtered_df.map Row.downloads_total)
    match ds.getLast? with
    | none => .error .indexError
    | some none => .error .valueError
    | some (some v) =>
      .ok { xs := filtered_df.map Row.interval,
            ys := filtered_df.map Row.downloads_total,
            publish_date := r0.published_at,
            total_downloads := sumOpt ds,
            latest_downloads := v }

/-! ## The monthly callback `update_monthly_stats_graph` (lines 81–129) -/

/-- The monthly figure's data: the two bar traces over the month axis
(lines 86–107). -/
structure MonthlyFig where
  months : List Nat
  downloads : List Int
  episode_counts : List Nat

deriving instance DecidableEq, Repr for MonthlyFig

/-- Render the monthly figure from an `all_months` table (lines 86–107). -/
def render_monthly (am : List (Nat × Int × Nat)) : MonthlyFig :=
  { months := am.map (fun r => r.1),
    downloads := am.map (fun r => r.2.1),
    episode_counts := am.map (fun r => r.2.2) }

/-- `update_monthly_stats_graph` (lines 81–129): its dropdown input is
ignored (line 79 and the `_` parameter); it re-renders the startup
aggregate. -/
def update_monthly_stats_graph (df : List Row) (_selected : String) : MonthlyFig :=
  render_monthly (all_months df)

/-! ## Request handlers over the shared process state (§5 of the spec)

The module-level `df` and `all_months` are the process-wide state loaded at
startup.  Each callback is embedded as an explicit state-passing handler
returning its output together with the state it leaves behind:
`update_graph` copies the filtered frame (`.copy()`, line 140) and assigns
its new column to the copy only, and `update_monthly_stats_graph` only
reads `all_months`, so both handlers return the state unchanged. -/

/-- The process-wide state: the loaded dataframe and the monthly aggregate
precomputed at startup (lines 14–36). -/
structure AppState where
  df : List Row
  allMonths : List (Nat × Int × Nat)

deriving instance DecidableEq, Repr for AppState

/-- Startup (lines 14–36): load the rows and precompute the aggregate. -/
def startup (rows : List Row) : AppState :=
  { df := rows, allMonths := all_months rows }

/-- The `update_graph` callback as a handler on the shared state. -/
def handle_update_graph (s : AppState) (selected : String) :
    Except PyError EpisodeView × AppState :=
  (update_graph s.df selected, s)

/-- The `update_monthly_stats_graph` callback as a handler on the shared
state: renders the precomputed `allMonths`. -/
def handle_monthly (s : AppState) (_selected : String) : MonthlyFig × AppState :=
  (render_monthly s.allMonths, s)

/-! ## Concrete datasets used as witnesses

`scenario_df` is the two-episode scenario of §8 of the spec: episode `A`
published 2023-01 with cumulative pairs (2023-01-01, 100) and
(2023-02-01, 250), episode `B` published 2023-02 with (2023-02-01, 50). -/

def scenario_df : List Row :=
  [ { episode_title := "A", published_at := 20230110, interval := 20230101,
      downloads_total := some 100 },
    { episode_title := "A", published_at := 20230110, interval := 20230201,
      downloads_total := some 250 },
    { episode_title := "B", published_at := 20230210, interval := 20230201,
      downloads_total := some 50 } ]

/-- A dataset whose single row has a malformed (NaN) `downloads_total`. -/
def nan_df : List Row :=
  [ { episode_title := "A", published_at := 20230105, interval := 20230101,
      downloads_total := none } ]

/-- A dataset with a malformed (NaN) `downloads_total` at an interior
interval of episode `A`, the last interval well-formed. -/
def nan_mid_df : List Row :=
  [ { episode_title := "A", published_at := 20230105, interval := 20230101,
      downloads_total := some 10 },
    { episode_title := "A", published_at := 20230105, interval := 20230201,
      downloads_total := none },
    { episode_title := "A", published_at := 20230105, interval := 20230301,
      downloads_total := some 30 } ]

/-- A dataset where a month has an episode published but no interval:
episode `S`, published 2023-01, single interval in 2023-03. -/
def gap_df : List Row :=
  [ { episode_title := "S", published_at := 20230110, interval := 20230301,
      downloads_total := some 5 } ]

/-! ## Lemmas on sorted key lists -/

theorem mem_insertKey {a n : Nat} : ∀ {l : List Nat}, a ∈ insertKey n l ↔ a = n ∨ a ∈ l := by
  intro l
  induction l with
  | nil => simp [insertKey]
  | cons m ms ih =>
    by_cases h1 : n < m
    · simp [insertKey, h1]
    · by_cases h2 : n = m
      · subst h2
        simp [insertKey, h1]
      · simp [insertKey, h1, h2, ih]
        tauto

theorem head?_insertKey {n k : Nat} : ∀ {l : List Nat},
    (insertKey n l).head? = some k → k = n ∨ l.head? = some k := by
  intro l
  cases l with
  | nil =>
    intro h
    simp [insertKey] at h
    exact Or.inl h.symm
  | cons m ms =>
    by_cases h1 : n < m
    · intro h
      simp [insertKey, h1] at h
      exact Or.inl h.symm
    · by_cases h2 : n = m
      · intro h
        simp [insertKey, h1, h2] at h
        exact Or.inr (by simp [h])
      · intro h
        simp [insertKey, h1, h2] at h
        exact Or.inr (by simp [h])

theorem chain_insertKey {n : Nat} : ∀ {l : List Nat},
    List.Chain' (· < ·) l → List.Chain' (· < ·) (insertKey n l) := by
  intro l
  induction l with
  | nil => intro _; simp [insertKey]
  | cons m ms ih =>
    intro h
    by_cases h1 : n < m
    · simpa [insertKey, h1] using List.chain'_cons.2 ⟨h1, h⟩
    · by_cases h2 : n = m
      · simpa [insertKey, h1, h2] using h
      · have hmn : m < n := by omega
        simp only [insertKey, if_neg h1, if_neg h2]
        rw [List.chain'_cons']
        refine ⟨?_, ih (List.Chain'.tail h)⟩
        intro y hy
        rcases head?_insertKey hy with rfl | hh
        · exact hmn
        · exact (List.chain'_cons'.1 h).1 y hh

theorem mem_sortedKeys {a : Nat} : ∀ {l : List Nat}, a ∈ sortedKeys l ↔ a ∈ l := by
  intro l
  induction l with
  | nil => simp [sortedKeys]
  | cons x xs ih =>
    show a ∈ insertKey x (sortedKeys xs) ↔ _
    rw [mem_insertKey, ih]
    simp

theorem chain_sortedKeys : ∀ l : List Nat, List.Chain' (· < ·) (sortedKeys l) := by
  intro l
  induction l with
  | nil => simp [sortedKeys]
  | cons x xs ih => exact chain_insertKey ih

theorem chain_lt_head_forall : ∀ {xs : List Nat} {x : Nat},
    List.Chain' (· < ·) (x :: xs) → ∀ y ∈ xs, x < y := by
  intro xs
  induction xs with
  | nil => intro x _ y hy; cases hy
  | cons z zs ih =>
    intro x h y hy
    obtain ⟨hxz, htail⟩ := List.chain'_cons.1 h
    rcases List.mem_cons.1 hy with rfl | hmem
    · exact hxz
    · exact lt_trans hxz (ih htail y hmem)

theorem count_eq_one_of_chain : ∀ {l : List Nat}, List.Chain' (· < ·) l →
    ∀ {a : Nat}, a ∈ l → l.count a = 1 := by
  intro l
  induction l with
  | nil => intro _ a ha; cases ha
  | cons x xs ih =>
    intro hc a ha
    have hlt : ∀ y ∈ xs, x < y := chain_lt_head_forall hc
    rcases List.mem_cons.1 ha with rfl | hmem
    · rw [List.count_cons_self]
      have : a ∉ xs := fun hx => lt_irrefl a (hlt a hx)
      rw [List.count_eq_zero.2 this]
    · have hne : a ≠ x := fun h => lt_irrefl x (h ▸ hlt a hmem)
      rw [List.count_cons_of_ne hne]
      exact ih (List.Chain'.tail hc) hmem

/-! ## Lemmas on keyed lists and lookups -/

theorem map_fst_keyed {β : Type} (f : Nat → β) : ∀ ks : List Nat,
    ((ks.map (fun k => (k, f k))).map Prod.fst) = ks := by
  intro ks
  induction ks with
  | nil => rfl
  | cons k ks ih => simp only [List.map_cons, ih]

theorem lookupKey_map_self {β : Type} (f : Nat → β) {m : Nat} : ∀ {ks : List Nat},
    m ∈ ks → lookupKey m (ks.map (fun k => (k, f k))) = some (f m) := by
  intro ks
  induction ks with
  | nil => intro h; cases h
  | cons k ks ih =>
    intro h
    by_cases hk : k = m
    · subst hk
      simp [lookupKey]
    · rcases List.mem_cons.1 h with rfl | hmem
      · exact absurd rfl hk
      · simp only [List.map_cons, lookupKey, if_neg hk]
        exact ih hmem

theorem lookupKey_eq_none {β : Type} {m : Nat} : ∀ {l : List (Nat × β)},
    m ∉ l.map Prod.fst → lookupKey m l = none := by
  intro l
  induction l with
  | nil => intro _; rfl
  | cons p rest ih =>
    intro h
    obtain ⟨k, v⟩ := p
    have hk : k ≠ m := by intro hkm; exact h (by simp [hkm])
    simp only [lookupKey, if_neg hk]
    exact ih (fun hm => h (by simp; exact Or.inr (by simpa using hm)))

theorem filter_keyed {β : Type} (p : Nat → Bool) (f : Nat → β) : ∀ ks : List Nat,
    ((ks.map (fun k => (k, f k))).filter (fun q => p q.1)) =
      (ks.filter p).map (fun k => (k, f k)) := by
  intro ks
  induction ks with
  | nil => rfl
  | cons k ks ih =>
    by_cases h : p k <;> simp [List.filter_cons, h, ih]

theorem getLast?_map' {α β : Type} (f : α → β) : ∀ l : List α,
    (l.map f).getLast? = (l.getLast?).map f := by
  intro l
  induction l with
  | nil => rfl
  | cons a l ih =>
    cases l with
    | nil => rfl
    | cons b l' =>
      rw [List.map_cons, List.map_cons, List.getLast?_cons_cons, List.getLast?_cons_cons,
        ← List.map_cons]
      exact ih

/-! ## Lemmas on the monthly-delta series -/

theorem length_deltasFrom : ∀ (xs : List (Option Int)) (prev : Option Int),
    (deltasFrom prev xs).length = xs.length := by
  intro xs
  induction xs with
  | nil => intro _; rfl
  | cons x xs ih =>
    intro prev
    simp only [deltasFrom, List.length_cons, ih]

theorem sumOpt_nil : sumOpt [] = 0 := rfl

theorem sumOpt_cons_some (d : Int) (l : List (Option Int)) :
    sumOpt (some d :: l) = d + sumOpt l := by
  simp [sumOpt]

theorem head?_monthly_deltas (xs : List (Option Int)) :
    (monthly_deltas xs).head? = xs.head? := by
  cases xs with
  | nil => rfl
  | cons x xs => cases x <;> rfl

theorem getLast?_cons_isSome {α : Type} (x : α) : ∀ l : List α,
    ∃ w, (x :: l).getLast? = some w := by
  intro l
  induction l generalizing x with
  | nil => exact ⟨x, rfl⟩
  | cons y ys ih =>
    obtain ⟨w, hw⟩ := ih y
    exact ⟨w, by rw [List.getLast?_cons_cons]; exact hw⟩

theorem deltasFrom_cons_exists (prev x : Option Int) (xs : List (Option Int)) :
    ∃ hd, deltasFrom prev (x :: xs) = hd :: deltasFrom x xs := by
  cases prev <;> cases x <;> exact ⟨_, rfl⟩

theorem getElem?_deltasFrom_succ : ∀ (xs : List (Option Int)) (prev : Option Int)
    (i : Nat) (a b : Int), xs[i]? = some (some a) → xs[i + 1]? = some (some b) →
    (deltasFrom prev xs)[i + 1]? = some (some (b - a)) := by
  intro xs
  induction xs with
  | nil => intro prev i a b ha _; simp at ha
  | cons x rest ih =>
    intro prev i a b ha hb
    match i with
    | 0 =>
      rw [List.getElem?_cons_zero] at ha
      rw [List.getElem?_cons_succ] at hb
      cases ha
      cases rest with
      | nil => simp at hb
      | cons r rest' =>
        rw [List.getElem?_cons_zero] at hb
        cases hb
        simp [deltasFrom]
    | j + 1 =>
      rw [List.getElem?_cons_succ] at ha hb
      obtain ⟨hd, hdeq⟩ := deltasFrom_cons_exists prev x rest
      rw [hdeq, List.getElem?_cons_succ]
      exact ih x j a b ha hb

theorem sumOpt_deltasFrom (a : Int) : ∀ ys : List Int,
    sumOpt (deltasFrom (some a) (ys.map some)) = (ys.getLast?).getD a - a := by
  intro ys
  induction ys generalizing a with
  | nil => simp [deltasFrom, sumOpt]
  | cons y ys ih =>
    rw [List.map_cons]
    show sumOpt (some (y - a) :: deltasFrom (some y) (ys.map some)) = _
    rw [sumOpt_cons_some, ih y]
    cases ys with
    | nil => simp
    | cons z zs =>
      obtain ⟨w, hw⟩ := getLast?_cons_isSome z zs
      rw [List.getLast?_cons_cons, hw]
      simp only [Option.getD_some]
      omega

theorem sumOpt_monthly_deltas : ∀ ys : List Int,
    sumOpt (monthly_deltas (ys.map some)) = (ys.getLast?).getD 0 := by
  intro ys
  cases ys with
  | nil => simp [monthly_deltas, deltasFrom, sumOpt]
  | cons y ys =>
    rw [List.map_cons]
    show sumOpt (some y :: deltasFrom (some y) (ys.map some)) = _
    rw [sumOpt_cons_some, sumOpt_deltasFrom y ys]
    cases ys with
    | nil => simp
    | cons z zs =>
      obtain ⟨w, hw⟩ := getLast?_cons_isSome z zs
      rw [List.getLast?_cons_cons, hw]
      simp only [Option.getD_some]
      omega

theorem getLast?_deltasFrom_some : ∀ (xs : List (Option Int)) (prev : Option Int) (v : Int),
    xs.getLast? = some (some v) → ∃ w, (deltasFrom prev xs).getLast? = some (some w) := by
  intro xs
  induction xs with
  | nil => intro prev v h; simp at h
  | cons x rest ih =>
    intro prev v h
    cases rest with
    | nil =>
      simp only [List.getLast?_singleton] at h
      have hx : x = some v := by injection h
      subst hx
      cases prev with
      | none => exact ⟨v, rfl⟩
      | some a => exact ⟨v - a, rfl⟩
    | cons y rest' =>
      rw [List.getLast?_cons_cons] at h
      obtain ⟨w, hw⟩ := ih x v h
      obtain ⟨hd1, hdeq1⟩ := deltasFrom_cons_exists prev x (y :: rest')
      obtain ⟨hd2, hdeq2⟩ := deltasFrom_cons_exists x y rest'
      refine ⟨w, ?_⟩
      rw [hdeq2] at hw
      rw [hdeq1, hdeq2, List.getLast?_cons_cons]
      exact hw

theorem exists_map_some : ∀ {xs : List (Option Int)}, (∀ x ∈ xs, x.isSome) →
    ∃ ys : List Int, xs = ys.map some := by
  intro xs
  induction xs with
  | nil => intro _; exact ⟨[], rfl⟩
  | cons x rest ih =>
    intro h
    obtain ⟨v, hv⟩ := Option.isSome_iff_exists.1 (h x (List.mem_cons_self x rest))
    obtain ⟨ys, hys⟩ := ih (fun y hy => h y (List.mem_cons_of_mem x hy))
    exact ⟨v :: ys, by rw [List.map_cons, ← hv, ← hys]⟩

/-! ## Evaluation lemmas for `update_graph` -/

theorem length_insertRow (r : Row) : ∀ l : List Row, (insertRow r l).length = l.length + 1 := by
  intro l
  induction l with
  | nil => rfl
  | cons s ss ih =>
    by_cases h : r.interval ≤ s.interval <;> simp [insertRow, h, ih]

theorem length_sortByInterval : ∀ l : List Row, (sortByInterval l).length = l.length := by
  intro l
  induction l with
  | nil => rfl
  | cons r rs ih => simp [sortByInterval, length_insertRow, ih]

theorem head?_some_of_ne_nil {α : Type} {l : List α} (h : l ≠ []) : ∃ a, l.head? = some a := by
  cases l with
  | nil => exact absurd rfl h
  | cons a l' => exact ⟨a, rfl⟩

theorem update_graph_empty (df : List Row) (t : String)
    (h : episode_series df t = []) : update_graph df t = Except.error PyError.indexError := by
  simp only [update_graph, h]
  rfl

theorem update_graph_eq_ok (df : List Row) (t : String) (r0 : Row) (w : Int)
    (hr0 : (episode_series df t).head? = some r0)
    (hw : (monthly_deltas ((episode_series df t).map Row.downloads_total)).getLast?
        = some (some w)) :
    update_graph df t = Except.ok
      { xs := (episode_series df t).map Row.interval,
        ys := (episode_series df t).map Row.downloads_total,
        publish_date := r0.published_at,
        total_downloads := sumOpt (monthly_deltas ((episode_series df t).map Row.downloads_total)),
        latest_downloads := w } := by
  simp only [update_graph, hr0, hw]

theorem update_graph_val_error (df : List Row) (t : String) (r0 : Row)
    (hr0 : (episode_series df t).head? = some r0)
    (hlast : (monthly_deltas ((episode_series df t).map Row.downloads_total)).getLast?
        = some none) :
    update_graph df t = Except.error PyError.valueError := by
  simp only [update_graph, hr0, hlast]

/-! ## The claims -/

/-- C1.  The spec requires that selecting an episode title absent from the
dataset not raise an unhandled failure and instead yield an
empty/placeholder result.  The code has no guard: on an absent title the
filtered frame is empty and `filtered_df['published_at'].iloc[0]`
(line 144) raises `IndexError`.  Evaluated at the failing input: the title
`"C"` is absent from the §8 scenario dataset, and `update_graph` raises
instead of returning a placeholder. -/
theorem claim1_absent_title_raises :
    ("C" ∉ scenario_df.map Row.episode_title) ∧
      update_graph scenario_df "C" = Except.error PyError.indexError := by
  constructor
  · decide
  · rfl

/-- Helper for C1: any title with no matching row makes `update_graph`
raise `IndexError` at line 144. -/
theorem update_graph_absent (df : List Row) (t : String)
    (h : t ∉ df.map Row.episode_title) :
    update_graph df t = Except.error PyError.indexError := by
  apply update_graph_empty
  unfold episode_series
  have hf : df.filter (fun r => r.episode_title = t) = [] := by
    rw [List.filter_eq_nil_iff]
    intro r hr hrt
    exact h (List.mem_map.2 ⟨r, hr, by simpa using hrt⟩)
  rw [hf]
  rfl

/-- C5.  For an episode with exactly one recorded interval, the total
downloads and the latest-period downloads both equal that single
cumulative value: `diff()` yields NaN for the lone row, `fillna` backfills
the cumulative value, and both the sum and the last delta are that value. -/
theorem claim5_single_interval (df : List Row) (t : String) (r : Row) (v : Int)
    (hf : df.filter (fun x => x.episode_title = t) = [r])
    (hv : r.downloads_total = some v) :
    ∃ out, update_graph df t = Except.ok out ∧
      out.total_downloads = v ∧ out.latest_downloads = v := by
  have hes : episode_series df t = [r] := by
    unfold episode_series
    rw [hf]
    rfl
  have hr0 : (episode_series df t).head? = some r := by rw [hes]; rfl
  have hds : monthly_deltas ((episode_series df t).map Row.downloads_total) = [some v] := by
    rw [hes, List.map_cons, List.map_nil, hv]
    rfl
  refine ⟨_, update_graph_eq_ok df t r v hr0 (by rw [hds]; rfl), ?_, rfl⟩
  show sumOpt (monthly_deltas ((episode_series df t).map Row.downloads_total)) = v
  rw [hds, sumOpt_cons_some, sumOpt_nil]
  omega

/-- Witness for C5 at a concrete single-interval dataset. -/
theorem claim5_single_interval_witness :
    ∃ out, update_graph gap_df "S" = Except.ok out ∧
      out.total_downloads = 5 ∧ out.latest_downloads = 5 :=
  claim5_single_interval gap_df "S"
    { episode_title := "S", published_at := 20230110, interval := 20230301,
      downloads_total := some 5 } 5 (by decide) rfl

/-- C6.  `update_monthly_stats_graph` ignores its dropdown input (line 79:
the selection only triggers the refresh) and re-renders the aggregate
computed at startup, so its output is the same for any two selections. -/
theorem claim6_monthly_view_independent_of_selection (df : List Row) (s t : String) :
    update_monthly_stats_graph df s = update_monthly_stats_graph df t := rfl

/-- C8.  Neither request handler mutates the shared state loaded at
startup: both return the dataframe and the precomputed monthly aggregate
unchanged (`update_graph` works on a `.copy()`, line 140;
`update_monthly_stats_graph` only reads), and re-invoking either handler
with the same selection on the state left behind yields the same output. -/
theorem claim8_handlers_read_only (s : AppState) (sel : String) :
    (handle_update_graph s sel).2 = s ∧
    (handle_monthly s sel).2 = s ∧
    (handle_update_graph ((handle_update_graph s sel).2) sel).1 = (handle_update_graph s sel).1 ∧
    (handle_monthly ((handle_monthly s sel).2) sel).1 = (handle_monthly s sel).1 ∧
    (handle_update_graph ((handle_monthly s sel).2) sel).1 = (handle_update_graph s sel).1 ∧
    (handle_monthly ((handle_update_graph s sel).2) sel).1 = (handle_monthly s sel).1 :=
  ⟨rfl, rfl, rfl, rfl, rfl, rfl⟩

/-- C9.  On a non-empty dataset the dropdown's initial value — the first
row's episode title (line 54) — is one of the dropdown's options, the
distinct episode titles (line 53). -/
theorem claim9_initial_value_is_an_option (df : List Row) (h : df ≠ []) :
    ∃ t, dropdown_value df = some t ∧ t ∈ dropdown_options df := by
  cases df with
  | nil => exact absurd rfl h
  | cons r rs =>
    refine ⟨r.episode_title, rfl, ?_⟩
    show r.episode_title ∈ uniqueList (r.episode_title :: rs.map Row.episode_title)
    rw [uniqueList]
    exact List.mem_cons_self _ _

/-- Witness for C9 at the §8 scenario dataset. -/
theorem claim9_initial_value_is_an_option_witness :
    ∃ t, dropdown_value scenario_df = some t ∧ t ∈ dropdown_options scenario_df :=
  claim9_initial_value_is_an_option scenario_df (by decide)

/-- C10.  When the selected title occurs in the dataset the filtered
series is non-empty, so the positional accesses of `update_graph`
(`iloc[0]` at line 144, `iloc[-1]` at line 170) are in bounds and the
`IndexError` branch is unreachable. -/
theorem claim10_present_title_in_bounds (df : List Row) (t : String)
    (h : t ∈ df.map Row.episode_title) :
    episode_series df t ≠ [] ∧ update_graph df t ≠ Except.error PyError.indexError := by
  obtain ⟨r, hr, hrt⟩ := List.mem_map.1 h
  have hmem : r ∈ df.filter (fun x => x.episode_title = t) :=
    List.mem_filter.2 ⟨hr, by simp [hrt]⟩
  have hlen : (episode_series df t).length = (df.filter (fun x => x.episode_title = t)).length :=
    length_sortByInterval _
  have hne : episode_series df t ≠ [] := by
    intro he
    rw [he] at hlen
    have := List.length_pos.2 (List.ne_nil_of_mem hmem)
    simp at hlen
    omega
  refine ⟨hne, ?_⟩
  obtain ⟨r0, hr0⟩ := head?_some_of_ne_nil hne
  have hds_ne : monthly_deltas ((episode_series df t).map Row.downloads_total) ≠ [] := by
    intro hd
    have h1 : (monthly_deltas ((episode_series df t).map Row.downloads_total)).length
        = (episode_series df t).length := by
      rw [monthly_deltas.eq_def, length_deltasFrom, List.length_map]
    rw [hd] at h1
    exact hne (List.length_eq_zero.1 h1.symm)
  obtain ⟨d0, ds, hds⟩ := List.exists_cons_of_ne_nil hds_ne
  obtain ⟨o, ho⟩ := getLast?_cons_isSome d0 ds
  have hlast : (monthly_deltas ((episode_series df t).map Row.downloads_total)).getLast?
      = some o := by rw [hds]; exact ho
  cases o with
  | none =>
    rw [update_graph_val_error df t r0 hr0 hlast]
    simp
  | some w =>
    rw [update_graph_eq_ok df t r0 w hr0 hlast]
    simp

/-- Witness for C10: title `"B"` occurs in the §8 scenario dataset. -/
theorem claim10_present_title_in_bounds_witness :
    episode_series scenario_df "B" ≠ [] ∧
      update_graph scenario_df "B" ≠ Except.error PyError.indexError :=
  claim10_present_title_in_bounds scenario_df "B" (by decide)

/-- C7, counterexample.  The claim says malformed (NaN) `downloads_total`
values propagate as rendering artifacts rather than causing a hard
failure.  But when the episode's last delta is NaN — here a single-row
episode whose only `downloads_total` is malformed — `int(...)` at line 172
raises `ValueError`: a hard failure of the render. -/
theorem claim7_nan_counterexample :
    (nan_df.map Row.downloads_total = [none]) ∧
      update_graph nan_df "A" = Except.error PyError.valueError := by
  constructor
  · rfl
  · rfl

/-- C7, amended.  Malformed (NaN) `downloads_total` values are not
validated and propagate unchanged into the per-episode chart data, and the
render still succeeds — provided the final monthly-delta value is
well-formed, which holds exactly when the last (sorted-by-interval)
cumulative value of the selected episode is well-formed.  (When that last
value is NaN, the `int(...)` conversion of the latest-downloads stat
raises `ValueError` and the render fails, as the counterexample shows.) -/
theorem claim7_nan_propagates_when_last_wellformed (df : List Row) (t : String) (v : Int)
    (h1 : episode_series df t ≠ [])
    (h2 : ((episode_series df t).map Row.downloads_total).getLast? = some (some v)) :
    ∃ out, update_graph df t = Except.ok out ∧
      out.ys = (episode_series df t).map Row.downloads_total := by
  obtain ⟨r0, hr0⟩ := head?_some_of_ne_nil h1
  obtain ⟨w, hw⟩ := getLast?_deltasFrom_some ((episode_series df t).map Row.downloads_total)
    none v h2
  exact ⟨_, update_graph_eq_ok df t r0 w hr0 hw, rfl⟩

/-- Witness for amended C7: a NaN at an interior interval of `nan_mid_df`
propagates into the chart data and the render succeeds. -/
theorem claim7_nan_propagates_witness :
    ∃ out, update_graph nan_mid_df "A" = Except.ok out ∧
      out.ys = (episode_series nan_mid_df "A").map Row.downloads_total :=
  claim7_nan_propagates_when_last_wellformed nan_mid_df "A" 30 (by decide) (by decide)

/-- C2.  For a present episode title with well-formed downloads values,
the monthly-delta series of `update_graph` starts with the first
cumulative value (no prior baseline), continues with the successive
differences of the interval-sorted cumulative series, and its sum
telescopes to the final (last-interval) cumulative value, which is the
total-downloads figure the callback reports. -/
theorem claim2_delta_series_sums_to_final (df : List Row) (t : String)
    (h1 : episode_series df t ≠ [])
    (h2 : ∀ r ∈ episode_series df t, (Row.downloads_total r).isSome) :
    (monthly_deltas ((episode_series df t).map Row.downloads_total)).head?
        = ((episode_series df t).map Row.downloads_total).head?
    ∧ (∀ (i : Nat) (a b : Int),
        ((episode_series df t).map Row.downloads_total)[i]? = some (some a) →
        ((episode_series df t).map Row.downloads_total)[i + 1]? = some (some b) →
        (monthly_deltas ((episode_series df t).map Row.downloads_total))[i + 1]?
            = some (some (b - a)))
    ∧ ∃ v : Int,
        ((episode_series df t).map Row.downloads_total).getLast? = some (some v)
        ∧ sumOpt (monthly_deltas ((episode_series df t).map Row.downloads_total)) = v
        ∧ ∃ out, update_graph df t = Except.ok out ∧ out.total_downloads = v := by
  have hxs : ∀ x ∈ (episode_series df t).map Row.downloads_total, x.isSome := by
    intro x hx
    obtain ⟨r, hr, rfl⟩ := List.mem_map.1 hx
    exact h2 r hr
  obtain ⟨ys, hys⟩ := exists_map_some hxs
  have hys_ne : ys ≠ [] := by
    intro hnil
    rw [hnil] at hys
    simp only [List.map_nil, List.map_eq_nil_iff] at hys
    exact h1 hys
  obtain ⟨y0, ys', hysc⟩ := List.exists_cons_of_ne_nil hys_ne
  obtain ⟨w, hw⟩ := getLast?_cons_isSome y0 ys'
  have hlast : ys.getLast? = some w := by rw [hysc]; exact hw
  refine ⟨head?_monthly_deltas _,
    fun i a b ha hb => getElem?_deltasFrom_succ _ none i a b ha hb,
    w, ?_, ?_, ?_⟩
  · rw [hys, getLast?_map', hlast]
    rfl
  · rw [hys, sumOpt_monthly_deltas ys, hlast]
    rfl
  · obtain ⟨r0, hr0⟩ := head?_some_of_ne_nil h1
    obtain ⟨w', hw'⟩ := getLast?_deltasFrom_some ((episode_series df t).map Row.downloads_total)
      none w (by rw [hys, getLast?_map', hlast]; rfl)
    refine ⟨_, update_graph_eq_ok df t r0 w' hr0 hw', ?_⟩
    show sumOpt (monthly_deltas ((episode_series df t).map Row.downloads_total)) = w
    rw [hys, sumOpt_monthly_deltas ys, hlast]
    rfl

/-- Witness for C2 at the §8 scenario: episode `A` has cumulative values
100 and 250, and the callback reports a total of 250, the final value. -/
theorem claim2_delta_series_sums_to_final_witness :
    ∃ v : Int,
      ((episode_series scenario_df "A").map Row.downloads_total).getLast? = some (some v)
      ∧ sumOpt (monthly_deltas ((episode_series scenario_df "A").map Row.downloads_total)) = v
      ∧ ∃ out, update_graph scenario_df "A" = Except.ok out ∧ out.total_downloads = v :=
  (claim2_delta_series_sums_to_final scenario_df "A" (by decide) (by decide)).2.2

/-- Helper: the last element of a list is a member of it. -/
theorem mem_of_getLast?_eq {α : Type} : ∀ {l : List α} {a : α}, l.getLast? = some a → a ∈ l := by
  intro l
  induction l with
  | nil => intro a h; simp at h
  | cons x l' ih =>
    intro a h
    cases l' with
    | nil =>
      simp only [List.getLast?_singleton] at h
      have hx : x = a := by injection h
      exact hx ▸ List.mem_cons_self x []
    | cons y l'' =>
      rw [List.getLast?_cons_cons] at h
      exact List.mem_cons_of_mem x (ih h)

/-- C3.  The monthly downloads aggregate sums `downloads_total` across all
episodes per interval and takes, within each calendar month, the summed
total at the month's last recorded interval as that month's figure; in
particular on the §8 two-episode scenario the merged table is
2023-01 → downloads_total 100, episode_count 1 and
2023-02 → downloads_total 300, episode_count 1. -/
theorem claim3_monthly_last_interval_total :
    (∀ (df : List Row) (m i : Nat), last_interval_of_month df m = some i →
        lookupKey m (monthly_downloads df) = some (interval_total df i)) ∧
      all_months scenario_df = [(202301, 100, 1), (202302, 300, 1)] := by
  constructor
  · intro df m i h
    unfold last_interval_of_month at h
    set ks := sortedKeys (df.map Row.interval) with hks
    have hmem_filter : i ∈ ks.filter (fun j => monthOf j = m) := mem_of_getLast?_eq h
    have hi_ks : i ∈ ks := (List.mem_filter.1 hmem_filter).1
    have him : monthOf i = m := by
      have := (List.mem_filter.1 hmem_filter).2
      simpa using this
    have hMs : (total_downloads_df df).map (fun p => monthOf p.1) = ks.map monthOf := by
      unfold total_downloads_df
      rw [List.map_map]
      rfl
    have hm_mem : m ∈ sortedKeys ((total_downloads_df df).map (fun p => monthOf p.1)) := by
      rw [hMs]
      exact mem_sortedKeys.2 (List.mem_map.2 ⟨i, hi_ks, him⟩)
    have hlk : lookupKey m (monthly_downloads df)
        = some (lastVal ((total_downloads_df df).filter (fun p => monthOf p.1 = m))) := by
      unfold monthly_downloads
      exact lookupKey_map_self _ hm_mem
    rw [hlk]
    have hfk : (total_downloads_df df).filter (fun p => monthOf p.1 = m)
        = (ks.filter (fun j => monthOf j = m)).map (fun j => (j, interval_total df j)) := by
      unfold total_downloads_df
      exact filter_keyed (fun j => decide (monthOf j = m)) (fun j => interval_total df j) ks
    rw [hfk]
    unfold lastVal
    rw [getLast?_map', h]
    rfl
  · decide

/-- Witness for C3: in the §8 scenario the last interval of 2023-02 is
2023-02-01 and the month's figure is the cross-episode total there. -/
theorem claim3_monthly_last_interval_total_witness :
    lookupKey 202302 (monthly_downloads scenario_df)
      = some (interval_total scenario_df 20230201) :=
  claim3_monthly_last_interval_total.1 scenario_df 202302 20230201 (by decide)

/-- C4.  The merged monthly table contains every month present in either
monthly series exactly once, fills the metric missing from one series with
zero, and its rows are strictly ascending in the month key (hence no
duplicate months). -/
theorem claim4_merged_month_table (df : List Row) :
    List.Chain' (· < ·) ((all_months df).map Prod.fst) ∧
    ∀ m : Nat,
      m ∈ (monthly_downloads df).map Prod.fst ∨ m ∈ (episodes_per_month df).map Prod.fst →
      ((all_months df).map Prod.fst).count m = 1 ∧
      (m ∉ (monthly_downloads df).map Prod.fst →
        ∃ c, lookupKey m (all_months df) = some (0, c)) ∧
      (m ∉ (episodes_per_month df).map Prod.fst →
        ∃ d, lookupKey m (all_months df) = some (d, 0)) := by
  have hkeys : (all_months df).map Prod.fst
      = sortedKeys ((monthly_downloads df).map Prod.fst
          ++ (episodes_per_month df).map Prod.fst) := by
    unfold all_months
    exact map_fst_keyed _ _
  constructor
  · rw [hkeys]
    exact chain_sortedKeys _
  · intro m hm
    have hmU : m ∈ sortedKeys ((monthly_downloads df).map Prod.fst
        ++ (episodes_per_month df).map Prod.fst) :=
      mem_sortedKeys.2 (List.mem_append.2 hm)
    have hlk : lookupKey m (all_months df)
        = some ((lookupKey m (monthly_downloads df)).getD 0,
                (lookupKey m (episodes_per_month df)).getD 0) := by
      unfold all_months
      exact lookupKey_map_self _ hmU
    refine ⟨?_, ?_, ?_⟩
    · rw [hkeys]
      exact count_eq_one_of_chain (chain_sortedKeys _) hmU
    · intro hnd
      exact ⟨(lookupKey m (episodes_per_month df)).getD 0,
        by rw [hlk, lookupKey_eq_none hnd]; rfl⟩
    · intro hne
      exact ⟨(lookupKey m (monthly_downloads df)).getD 0,
        by rw [hlk, lookupKey_eq_none hne]; rfl⟩

/-- Witness for C4 at `gap_df`: month 2023-01 appears only in the
episode-count series, is listed exactly once, and its downloads metric is
filled with zero. -/
theorem claim4_merged_month_table_witness :
    ((all_months gap_df).map Prod.fst).count 202301 = 1 ∧
      ∃ c, lookupKey 202301 (all_months gap_df) = some (0, c) := by
  obtain ⟨-, hall⟩ := claim4_merged_month_table gap_df
  obtain ⟨hcount, hdl, -⟩ := hall 202301 (Or.inr (by decide))
  exact ⟨hcount, hdl (by decide)⟩
